import Mathlib

/-!
Verification of the MinIO configuration store (internal/config/config.go).

The Go code is shallowly embedded: Go maps become association lists
(Go map keys are unique, so first-occurrence lookup agrees with map
lookup on every map-representable value), Go slices become lists, and
the process-wide registries (default KVS table, help tables, the
environment) become explicit function parameters.  Operations that can
panic in Go (out-of-range indexing, assignment to an entry of a nil
map) return the `Outcome.panicked` result.
-/

/-- KV is a single key/value pair, from type KV in config.go. -/
structure KV where
  key : String
  value : String
deriving DecidableEq

/-- KVS is an ordered list of key/value pairs, from type KVS in config.go. -/
abbrev KVS := List KV

/-- HelpKV is the help metadata of one key: the fields of madmin/config help
entries that config.go reads (Key, Optional, Sensitive). -/
structure HelpKV where
  key : String
  optional : Bool
  sensitive : Bool
deriving DecidableEq

/-- Target is a flattened subsystem/KVS view, from type Target in config.go. -/
structure Target where
  subSystem : String
  kvs : KVS
deriving DecidableEq

/-- CErr refines the single string-typed config.Error: one constructor per
distinct Errorf call site reached by the embedded operations. -/
inductive CErr where
  | emptyInput
  | invalidArgs (s : String)
  | unknownSubSys (s : String)
  | emptyTarget (s : String)
  | targetDoesntExist (s : String)
  | alreadyDeleted (s : String)
  | singleTargetOnly (sub : String)
  | emptyKeys (sub : String)
  | emptyValue (field : String)
  | notOptional (key sub : String)
deriving DecidableEq

/-- Outcome of a Go call: normal value, error return, or runtime panic. -/
inductive Outcome (α : Type) where
  | panicked
  | failed (e : CErr)
  | ok (a : α)
deriving DecidableEq

/-- Config is the two-level store map[string]map[string]KVS, embedded as an
association list of subsystem blocks, each an association list of targets. -/
abbrev Config := List (String × List (String × KVS))

/-- The sentinel default target name, madmin.Default. -/
def defaultTgt : String := "_"

/-- The state key, madmin.EnableKey. -/
def enableKey : String := "enable"

/-- The on value of the state key, madmin.EnableOn. -/
def enableOn : String := "on"

/-- The reserved comment key, madmin.CommentKey. -/
def commentKey : String := "comment"

/-- Environment variable name front piece, EnvPrefix in config.go. -/
def envPrefixStr : String := "MINIO_"

/-- SubSystems from config.go, in the sorted order produced by
set.StringSet.ToSlice, which New iterates. -/
def subSystemsList : List String :=
  ["api", "audit_kafka", "audit_webhook", "cache", "callhome", "compression",
   "credentials", "etcd", "heal", "identity_ldap", "identity_openid",
   "identity_plugin", "identity_tls", "logger_webhook", "notify_amqp",
   "notify_elasticsearch", "notify_kafka", "notify_mqtt", "notify_mysql",
   "notify_nats", "notify_nsq", "notify_postgres", "notify_redis",
   "notify_webhook", "policy_opa", "policy_plugin", "region", "scanner",
   "site", "storage_class", "subnet"]

/-- SubSystemsDynamic from config.go. -/
def subSystemsDynamic : List String :=
  ["api", "compression", "scanner", "heal", "subnet", "callhome",
   "logger_webhook", "audit_webhook", "audit_kafka", "storage_class"]

/-- SubSystemsSingleTargets from config.go. -/
def subSystemsSingleTargets : List String :=
  ["credentials", "site", "region", "etcd", "cache", "api", "storage_class",
   "compression", "policy_opa", "policy_plugin", "identity_ldap",
   "identity_tls", "identity_plugin", "heal", "scanner"]

/-- renamedSubsys from config.go. -/
def renamedSubsys : List (String × String) := [("crawler", "scanner")]

/-- resolvableSubsystems from config.go. -/
def resolvableSubsystems : List String := ["identity_openid"]

/-- Characters before the first occurrence of the separator, and the
characters after it when it occurs. -/
def breakAt (sep : Char) : List Char → List Char × Option (List Char)
  | [] => ([], none)
  | c :: t =>
      if c = sep then ([], some t)
      else
        let r := breakAt sep t
        (c :: r.1, r.2)

/-- Go strings.SplitN with n = 2 on a one-character separator: the part
before the first separator and, when the separator occurs, the rest. -/
def splitFirst (s : String) (sep : Char) : String × Option String :=
  match breakAt sep s.data with
  | (a, none) => (String.mk a, none)
  | (a, some b) => (String.mk a, some (String.mk b))

/-- Token accumulation for Go strings.Fields. -/
def goFieldsAux : List Char → List Char → List String
  | [], acc => if acc = [] then [] else [String.mk acc.reverse]
  | c :: t, acc =>
      if c.isWhitespace then
        if acc = [] then goFieldsAux t [] else String.mk acc.reverse :: goFieldsAux t []
      else goFieldsAux t (c :: acc)

/-- Go strings.Fields: whitespace-separated tokens, empties dropped. -/
def goFields (s : String) : List String :=
  goFieldsAux s.data []

/-- Go strings.TrimSpace on a character list. -/
def trimChars (l : List Char) : List Char :=
  ((l.dropWhile Char.isWhitespace).reverse.dropWhile Char.isWhitespace).reverse

/-- Go strings.TrimPrefix: remove at most one occurrence of the front piece. -/
def trimPrefixC (l p : List Char) : List Char :=
  if p.isPrefixOf l then l.drop p.length else l

/-- Go strings.TrimSuffix: remove at most one occurrence of the end piece. -/
def trimSuffixC (l p : List Char) : List Char :=
  if p.reverse.isPrefixOf l.reverse then (l.reverse.drop p.length).reverse else l

/-- Whether p is a front piece of s, Go strings.HasPrefix. -/
def startsWithS (s p : String) : Bool :=
  p.data.isPrefixOf s.data

/-- ASCII upper-casing of one character, as Go strings.ToUpper acts on the
ASCII subsystem and parameter names. -/
def upChar (c : Char) : Char :=
  if 97 ≤ c.toNat ∧ c.toNat ≤ 122 then Char.ofNat (c.toNat - 32) else c

/-- ASCII upper-casing of a name. -/
def upStr (s : String) : String :=
  String.mk (s.data.map upChar)

/-- First index at which pattern p occurs in l, like Go strings.Index. -/
def subIdx (l p : List Char) : Option Nat :=
  match l with
  | [] => if p.isPrefixOf ([] : List Char) then some 0 else none
  | c :: t => if p.isPrefixOf (c :: t) then some 0 else (subIdx t p).map (· + 1)

/-- Insert a number into a sorted list, for sort.Ints. -/
def insertNat (n : Nat) : List Nat → List Nat
  | [] => [n]
  | m :: t => if n ≤ m then n :: m :: t else m :: insertNat n t

/-- Sorting of index lists, for sort.Ints. -/
def sortNats (l : List Nat) : List Nat := l.foldr insertNat []

/-- Slices of the input between successive sorted key positions, each
trimmed, the last slice running to the end. -/
def sliceFields (l : List Char) : List Nat → List String
  | [] => []
  | [i] => [String.mk (trimChars (l.drop i))]
  | i :: j :: rest =>
      String.mk (trimChars ((l.drop i).take (j - i))) :: sliceFields l (j :: rest)

/-- Modelled from the spec: madmin.KvFields is not under src.  Per section
4.2 the remainder of a directive is cut into key=value fields using the
subsystem's default key list to decide field boundaries: the first position
of each known key followed by the separator starts a field, and each field
runs to the next such position. -/
def kvFields (input : String) (keys : List String) : List String :=
  let l := input.data
  let idxs := keys.filterMap (fun k => subIdx l (k ++ "=").data)
  sliceFields l (sortNats idxs)

/-- Modelled from the spec: madmin.SanitizeValue is not under src.  Per
sections 4.2 and 6 a value is trimmed of surrounding whitespace and of one
wrapping pair of double or single quotes. -/
def sanitizeValue (v : String) : String :=
  let dq : List Char := [Char.ofNat 34]
  let sq : List Char := [Char.ofNat 39]
  let l1 := trimSuffixC (trimPrefixC (trimChars v.data) dq) dq
  String.mk (trimSuffixC (trimPrefixC l1 sq) sq)

/-- KVS.Lookup from config.go: value of the first pair with the key. -/
def KVS.lookup (kvs : KVS) (k : String) : Option String :=
  match kvs with
  | [] => none
  | kv :: rest => if kv.key = k then some kv.value else KVS.lookup rest k

/-- KVS.Get from config.go: Lookup, empty string when missing. -/
def KVS.get (kvs : KVS) (k : String) : String :=
  (kvs.lookup k).getD ""

/-- KVS.Set from config.go: overwrite the first pair with the key in place,
append when the key is absent. -/
def KVS.set (kvs : KVS) (k v : String) : KVS :=
  match kvs with
  | [] => [⟨k, v⟩]
  | kv :: rest => if kv.key = k then ⟨k, v⟩ :: rest else kv :: KVS.set rest k v

/-- KVS.Clone from config.go: a fresh copy, which for list values is the
list itself. -/
def KVS.clone (kvs : KVS) : KVS := kvs

/-- KVS.Keys from config.go: all keys, with the comment key appended when
not already present. -/
def KVS.keys (kvs : KVS) : List String :=
  let ks := List.map KV.key kvs
  if kvs.any (fun kv => kv.key = commentKey) then ks else ks ++ [commentKey]

/-- Back-fill loop of SetKVS lines 900-904: add each source pair whose key
the accumulating KVS does not yet hold. -/
def KVS.backfill (curr src : KVS) : KVS :=
  src.foldl (fun a kv => if (a.lookup kv.key).isSome then a else a.set kv.key kv.value) curr

/-- Back-fill loop of Merge lines 642-647 and GetKVS lines 722-727: add each
source pair whose key the original KVS does not hold; the presence test uses
the original, not the accumulator. -/
def KVS.backfillAgainst (orig curr src : KVS) : KVS :=
  src.foldl (fun a kv => if (orig.lookup kv.key).isSome then a else a.set kv.key kv.value) curr

/-- Lookup of a subsystem block, Go c[subSys] with presence flag. -/
def lookupSub (c : Config) (s : String) : Option (List (String × KVS)) :=
  match c with
  | [] => none
  | blk :: rest => if blk.1 = s then some blk.2 else lookupSub rest s

/-- Lookup in a target association list. -/
def lookupTgt (tgts : List (String × KVS)) (t : String) : Option KVS :=
  match tgts with
  | [] => none
  | tv :: rest => if tv.1 = t then some tv.2 else lookupTgt rest t

/-- Go c[subSys][tgt] with presence flag. -/
def lookup2 (c : Config) (s t : String) : Option KVS :=
  (lookupSub c s).bind (fun tgts => lookupTgt tgts t)

/-- Go c[subSys][tgt] as a value: the zero KVS when missing. -/
def get2 (c : Config) (s t : String) : KVS :=
  (lookup2 c s t).getD []

/-- Overwrite the first target entry with the name, append when absent: the
assignment tgts[t] = v on a Go inner map. -/
def setTgt (tgts : List (String × KVS)) (t : String) (v : KVS) : List (String × KVS) :=
  match tgts with
  | [] => [(t, v)]
  | tv :: rest => if tv.1 = t then (t, v) :: rest else tv :: setTgt rest t v

/-- Overwrite the first subsystem block with the name, append when absent:
the assignment c[s] = tgts on a Go outer map. -/
def setSub (c : Config) (s : String) (tgts : List (String × KVS)) : Config :=
  match c with
  | [] => [(s, tgts)]
  | blk :: rest => if blk.1 = s then (s, tgts) :: rest else blk :: setSub rest s tgts

/-- The assignment c[s][t] = v when c[s] exists; total extension appends a
fresh block (the Go code only performs this write under a presence guard). -/
def setCfg (c : Config) (s t : String) (v : KVS) : Config :=
  match lookupSub c s with
  | some tgts => setSub c s (setTgt tgts t v)
  | none => c ++ [(s, [(t, v)])]

/-- Removal of every pair with the given name from a target list. -/
def delTgtList (t : String) : List (String × KVS) → List (String × KVS)
  | [] => []
  | tv :: rest => if tv.1 = t then delTgtList t rest else tv :: delTgtList t rest

/-- Go delete(c, s): drop the subsystem block. -/
def removeSub (s : String) : Config → Config
  | [] => []
  | blk :: rest => if blk.1 = s then removeSub s rest else blk :: removeSub s rest

/-- Go delete(c[s], t): drop target t from the subsystem block of s. -/
def delTgt (c : Config) (s t : String) : Config :=
  match c with
  | [] => []
  | blk :: rest =>
      if blk.1 = s then (blk.1, delTgtList t blk.2) :: rest
      else blk :: delTgt rest s t

/-- New from config.go: every registered subsystem carries its default KVS
under the default target.  The registered default table is the explicit
parameter defT, with Go's zero KVS for missing entries. -/
def newConfig (defT : String → Option KVS) : Config :=
  subSystemsList.map (fun k => (k, [(defaultTgt, (defT k).getD [])]))

/-- Config.Clone from config.go: start from New, then replace the block of
every subsystem present in the source with a copy of its targets. -/
def cloneCfg (defT : String → Option KVS) (c : Config) : Config :=
  c.foldl (fun cp blk => setSub cp blk.1 blk.2) (newConfig defT)

/-- GetSubSys from config.go: subsystem name, the key/value tail when the
directive has one, and the target (default when not given).  A single-token
directive is accepted with no tail, as in the source. -/
def getSubSys (s : String) : Except CErr (String × Option String × String) :=
  if s = "" then .error .emptyInput
  else
    let inputs := splitFirst s ' '
    let sv := splitFirst inputs.1 ':'
    let subSys := sv.1
    if subSys ∉ subSystemsList then .error (.unknownSubSys s)
    else
      match inputs.2 with
      | none => .ok (subSys, none, defaultTgt)
      | some tail =>
          if subSys ∈ subSystemsSingleTargets ∧ sv.2.isSome then
            .error (.singleTargetOnly subSys)
          else
            match sv.2 with
            | some t => .ok (subSys, some tail, t)
            | none => .ok (subSys, some tail, defaultTgt)

/-- Field loop of SetKVS lines 863-884: build a KVS from key=value fields;
a field without separator continues the previous key's value space-joined,
and errors when there is no previous key. -/
def parsePairs : List String → KVS → String → Except CErr KVS
  | [], kvs, _ => .ok kvs
  | f :: rest, kvs, prevK =>
      match splitFirst f '=' with
      | (k, some v) => parsePairs rest (kvs.set k (sanitizeValue v)) k
      | (_, none) =>
          if prevK ≠ "" then
            parsePairs rest (kvs.set prevK (kvs.get prevK ++ " " ++ sanitizeValue f)) prevK
          else .error (.emptyValue f)

/-- Implicit state handling of SetKVS lines 886-892: when the default KVS
declares the state key and the parsed KVS omits it, set it to on. -/
def withEnableDefault (defKVS kvs : KVS) : KVS :=
  if (kvs.lookup enableKey).isNone ∧ (defKVS.lookup enableKey).isSome then
    kvs.set enableKey enableOn
  else kvs

/-- Merge step of SetKVS lines 907-918: apply every non-comment pair onto
the current KVS, then the comment pair last. -/
def applyPairs (curr kvs : KVS) : KVS :=
  let c1 := kvs.foldl (fun a kv => if kv.key = commentKey then a else a.set kv.key kv.value) curr
  match kvs.lookup commentKey with
  | some v => c1.set commentKey v
  | none => c1

/-- Current KVS of SetKVS lines 894-905: the stored entry back-filled from
defaults, or a clone of the defaults when no entry exists. -/
def baseKVS (defKVS : KVS) (stored : Option KVS) : KVS :=
  match stored with
  | none => defKVS.clone
  | some ck => KVS.backfill ck.clone defKVS

/-- The merged KVS a SetKVS call computes for a parsed directive. -/
def mergedOf (defKVS : KVS) (c : Config) (subSys tgt : String) (kvs : KVS) : KVS :=
  applyPairs (baseKVS defKVS (lookup2 c subSys tgt)) kvs

/-- Enabled test of SetKVS lines 922-929: the state key of the merged KVS
equals on when the defaults declare a state key, implicit on otherwise. -/
def enabledOf (defKVS curr : KVS) : Bool :=
  if (defKVS.lookup enableKey).isSome then curr.get enableKey == enableOn else true

/-- Required-key loop of SetKVS lines 920-939: the first help key that is
not optional and empty in the merged KVS. -/
def firstViolation (hl : List HelpKV) (curr : KVS) : Option String :=
  (hl.find? (fun h => !h.optional && curr.get h.key == "")).map HelpKV.key

/-- Everything Config.SetKVS computes before its single store write: the
dynamic flag, the addressed subsystem and target, and the merged KVS.  The
missing tail after a single-token directive reproduces the out-of-range
read of inputs at index one; a store whose outer map lacks the subsystem
reproduces the assignment to an entry of a nil inner map. -/
def setKVSCompute (defT : String → Option KVS) (helpT : String → List HelpKV)
    (c : Config) (s : String) : Outcome (Bool × String × String × KVS) :=
  match getSubSys s with
  | .error e => .failed e
  | .ok (subSys, tailOpt, tgt) =>
      let dynamic := subSystemsDynamic.contains subSys
      match tailOpt with
      | none => .panicked
      | some tail =>
          let defKVS := (defT subSys).getD []
          let fields := kvFields tail defKVS.keys
          if fields.isEmpty then .failed (.emptyKeys subSys)
          else
            match parsePairs fields [] "" with
            | .error e => .failed e
            | .ok kvs0 =>
                let kvs := withEnableDefault defKVS kvs0
                let curr := mergedOf defKVS c subSys tgt kvs
                match if enabledOf defKVS curr then firstViolation (helpT subSys) curr else none with
                | some k => .failed (.notOptional k subSys)
                | none =>
                    if (lookupSub c subSys).isSome then .ok (dynamic, subSys, tgt, curr)
                    else .panicked

/-- Config.SetKVS from config.go: compute, then perform the one store write
of line 940 on success. -/
def setKVS (defT : String → Option KVS) (helpT : String → List HelpKV)
    (c : Config) (s : String) : Outcome Bool × Config :=
  match setKVSCompute defT helpT c s with
  | .ok (dyn, sub, tgt, curr) => (.ok dyn, setCfg c sub tgt curr)
  | .failed e => (.failed e, c)
  | .panicked => (.panicked, c)

/-- Config.DelKVS from config.go. -/
def delKVS (c : Config) (s : String) : Outcome Unit × Config :=
  if s = "" then (.failed .emptyInput, c)
  else
    match goFields s with
    | [] => (.panicked, c)
    | i0 :: rest =>
        if rest ≠ [] then (.failed (.invalidArgs s), c)
        else
          let sv := splitFirst i0 ':'
          if sv.1 ∉ subSystemsList then (.ok (), removeSub sv.1 c)
          else
            let go := fun (tgt : String) =>
              if (lookup2 c sv.1 tgt).isSome then (Outcome.ok (), delTgt c sv.1 tgt)
              else (Outcome.failed (.alreadyDeleted s), c)
            match sv.2 with
            | some t => if t = "" then (.failed (.emptyTarget s), c) else go t
            | none => go defaultTgt

/-- Targets of a subsystem block, Go c[s] as a value. -/
def getTgts (c : Config) (s : String) : List (String × KVS) :=
  (lookupSub c s).getD []

/-- One listing entry of the bare-name branch of GetKVS lines 750-768: a
stored target back-filled from the subsystem defaults, named with the
target suffix for a non-default target. -/
def getKVSEntry (defT : String → Option KVS) (sub : String) (kv : String × KVS) : Target :=
  if kv.1 ≠ defaultTgt then ⟨sub ++ ":" ++ kv.1, KVS.backfill kv.2 ((defT sub).getD [])⟩
  else ⟨sub, KVS.backfill kv.2 ((defT sub).getD [])⟩

/-- One help-order iteration of the bare-name branch of GetKVS lines
740-769: skip entries the queried name is not a front piece of, emit a
synthetic pure-defaults entry when the stored default entry is empty, then
emit every stored target of the subsystem. -/
def getKVSStep (defT : String → Option KVS) (c : Config) (pre : String)
    (ts : List Target) (hkv : HelpKV) : List Target :=
  if ¬ startsWithS hkv.key pre then ts
  else
    (getTgts c hkv.key).foldl (fun ts kv => ts ++ [getKVSEntry defT hkv.key kv])
      (if (get2 c hkv.key defaultTgt).isEmpty then
        ts ++ [⟨hkv.key, (defT hkv.key).getD []⟩]
      else ts)

/-- Config.GetKVS from config.go.  The help declaration order (the empty
sub-system help entry) and the deprecated help entries are the parameters
hord and hdep. -/
def getKVS (hord hdep : List HelpKV) (defT : String → Option KVS)
    (c : Config) (s : String) : Outcome (List Target) :=
  if s = "" then .failed .emptyInput
  else
    match goFields s with
    | [] => .panicked
    | i0 :: rest =>
        if rest ≠ [] then .failed (.invalidArgs s)
        else
          let sv := splitFirst i0 ':'
          let found := sv.1 ∈ subSystemsList ∨
            (subSystemsList.any (fun m => startsWithS m sv.1) ∧ sv.2.isNone)
          if ¬found then .failed (.unknownSubSys s)
          else
            match sv.2 with
            | some t =>
                if t = "" then .failed (.emptyTarget s)
                else
                  match lookup2 c sv.1 t with
                  | none => .failed (.targetDoesntExist s)
                  | some kvs => .ok [⟨i0, KVS.backfill kvs ((defT sv.1).getD [])⟩]
            | none =>
                let kvsOrder := hord ++ hdep
                .ok (kvsOrder.foldl (getKVSStep defT c sv.1) [])

/-- One inner iteration of Config.Merge lines 640-665.  The state carries
the evolving fresh store and the loop variable subSys, which the rename
branch reassigns for the remaining iterations of the same block, exactly as
the Go range variable behaves. -/
def mergeInnerStep (c : Config) (st : Config × String) (tkv : String × KVS) :
    Config × String :=
  let cp := st.1
  let subSys := st.2
  let tgt := tkv.1
  let orig := get2 c subSys tgt
  let ckvs := KVS.backfillAgainst orig orig (get2 cp subSys defaultTgt)
  if (lookupSub cp subSys).isSome then (setCfg cp subSys tgt ckvs, subSys)
  else
    match (renamedSubsys.find? (fun p => p.1 = subSys)).map Prod.snd with
    | none => (cp, subSys)
    | some rn =>
        let ckvs2 := KVS.backfillAgainst orig ckvs (get2 cp rn defaultTgt)
        (setCfg cp rn tgt ckvs2, rn)

/-- One outer iteration of Config.Merge: run the inner loop over the block's
targets with the loop variable initialised to the block's subsystem name. -/
def mergeBlock (c : Config) (cp : Config) (blk : String × List (String × KVS)) :
    Config :=
  (blk.2.foldl (mergeInnerStep c) (cp, blk.1)).1

/-- Config.Merge from config.go: a fresh default store, with every block of
the old store merged onto it.  Go ranges over the store maps in an
unspecified order; folding the association list realizes one such order per
list arrangement, so each list representative of a map stands for one
possible execution. -/
def mergeCfg (defT : String → Option KVS) (c : Config) : Config :=
  c.foldl (mergeBlock c) (newConfig defT)

/-- The fixed redaction marker of RedactSensitiveInfo. -/
def marker : String := "*redacted*"

/-- Entry rewrite of RedactSensitiveInfo lines 442-446 for one sensitive
help key: every non-empty value stored under that key becomes the marker. -/
def redactKVSOne (hkey : String) (kvs : KVS) : KVS :=
  kvs.map (fun kv => if kv.key = hkey ∧ kv.value ≠ "" then ⟨kv.key, marker⟩ else kv)

/-- One help entry of the redaction loop: rewrite every target of the block
when the entry is flagged sensitive. -/
def redactBlockStep (tgts : List (String × KVS)) (h : HelpKV) : List (String × KVS) :=
  if h.sensitive then tgts.map (fun tv => (tv.1, redactKVSOne h.key tv.2)) else tgts

/-- Redaction of one subsystem block over its help entries. -/
def redactBlock (hl : List HelpKV) (tgts : List (String × KVS)) : List (String × KVS) :=
  hl.foldl redactBlockStep tgts

/-- Config.RedactSensitiveInfo from config.go: clone, redact sensitive
values per the help table, then delete the credentials entry, the error of
that delete being discarded. -/
def redactSensitiveInfo (helpT : String → List HelpKV) (defT : String → Option KVS)
    (c : Config) : Config :=
  let nc := cloneCfg defT c
  let nc2 := nc.map (fun blk => (blk.1, redactBlock (helpT blk.1) blk.2))
  (delKVS nc2 "credentials").2

/-- ValueSource from config.go. -/
inductive ValueSource where
  | absent
  | defSrc
  | cfgSrc
  | envSrc
deriving DecidableEq

/-- getEnvVarName from config.go. -/
def getEnvVarName (subSys target param : String) : String :=
  if target = defaultTgt then
    envPrefixStr ++ upStr subSys ++ "_" ++ upStr param
  else
    envPrefixStr ++ upStr subSys ++ "_" ++ upStr param ++ "_" ++ target

/-- Config.ResolveConfigParam from config.go.  The environment is the
parameter env, mapping a variable name to its value, empty when unset, as
env.Get with an empty fallback observes it. -/
def resolveConfigParam (defT : String → Option KVS) (env : String → String)
    (c : Config) (subSys target cfgParam : String) : String × ValueSource :=
  if subSys ∉ resolvableSubsystems then ("", .absent)
  else
    match defT subSys with
    | none => ("", .absent)
    | some defKVS =>
        match defKVS.lookup cfgParam with
        | none => ("", .absent)
        | some defValue =>
            let target1 := if target = "" then defaultTgt else target
            let envVar := getEnvVarName subSys target1 cfgParam
            let value := env envVar
            if value ≠ "" then (value, .envSrc)
            else
              match lookup2 c subSys target1 with
              | some kvs =>
                  match kvs.lookup cfgParam with
                  | some v => (v, .cfgSrc)
                  | none => (defValue, .defSrc)
              | none => (defValue, .defSrc)

/-- Fixture table with no registered defaults. -/
def dT0 : String → Option KVS := fun _ => none

/-- Fixture help table with no entries. -/
def hT0 : String → List HelpKV := fun _ => []

theorem KVS.lookup_set_self (kvs : KVS) (k v : String) :
    (kvs.set k v).lookup k = some v := by
  induction kvs with
  | nil => simp [KVS.set, KVS.lookup]
  | cons kv rest ih =>
      by_cases h : kv.key = k
      · simp [KVS.set, h, KVS.lookup]
      · simp [KVS.set, h, KVS.lookup, ih]

theorem KVS.lookup_set_ne (kvs : KVS) (k v k' : String) (hne : k' ≠ k) :
    (kvs.set k v).lookup k' = kvs.lookup k' := by
  induction kvs with
  | nil => simp [KVS.set, KVS.lookup, Ne.symm hne]
  | cons kv rest ih =>
      by_cases h : kv.key = k
      · simp [KVS.set, h, KVS.lookup, Ne.symm hne]
      · by_cases h2 : kv.key = k'
        · simp [KVS.set, h, KVS.lookup, h2, hne]
        · simp [KVS.set, h, KVS.lookup, h2, ih]

theorem KVS.length_set (kvs : KVS) (k v : String)
    (h : (kvs.lookup k).isSome) : (kvs.set k v).length = kvs.length := by
  induction kvs with
  | nil => simp [KVS.lookup] at h
  | cons kv rest ih =>
      by_cases hk : kv.key = k
      · simp [KVS.set, hk]
      · simp [KVS.lookup, hk] at h
        simp [KVS.set, hk, ih h]

theorem KVS.map_key_set (kvs : KVS) (k v : String)
    (h : (kvs.lookup k).isSome) :
    List.map KV.key (kvs.set k v) = List.map KV.key kvs := by
  induction kvs with
  | nil => simp [KVS.lookup] at h
  | cons kv rest ih =>
      by_cases hk : kv.key = k
      · simp [KVS.set, hk]
      · simp [KVS.lookup, hk] at h
        simp [KVS.set, hk, ih h]

/-- C6: after Set, Get of the key returns the value; Set on a key already
present keeps the key sequence and the length, so repeating Set with the
same key never increases the length. -/
theorem claim6_kvs_set_get (kvs : KVS) (k v : String) :
    (kvs.set k v).get k = v ∧
    ((kvs.lookup k).isSome →
      List.map KV.key (kvs.set k v) = List.map KV.key kvs ∧
      (kvs.set k v).length = kvs.length) ∧
    ∀ v', ((kvs.set k v).set k v').length = (kvs.set k v).length := by
  refine ⟨by simp [KVS.get, KVS.lookup_set_self], fun h => ⟨KVS.map_key_set kvs k v h, KVS.length_set kvs k v h⟩, fun v' => KVS.length_set _ k v' (by simp [KVS.lookup_set_self])⟩

theorem claim6_kvs_set_get_witness :
    List.map KV.key (KVS.set [⟨"a", "1"⟩] "a" "2") = List.map KV.key [(⟨"a", "1"⟩ : KV)] :=
  ((claim6_kvs_set_get [⟨"a", "1"⟩] "a" "2").2.1 (by decide)).1

/-- C2: when SetKVS returns an error the store comes back unchanged, so no
subsystem or target entry is added, removed or modified. -/
theorem claim2_setkvs_error_atomic (defT : String → Option KVS)
    (helpT : String → List HelpKV) (c : Config) (s : String) (e : CErr)
    (h : (setKVS defT helpT c s).1 = .failed e) :
    (setKVS defT helpT c s).2 = c := by
  rcases hc : setKVSCompute defT helpT c s with _ | e' | ⟨dyn, sub, tgt, curr⟩ <;>
    simp [setKVS, hc] at h ⊢

theorem claim2_setkvs_error_atomic_witness :
    (setKVS dT0 hT0 [] "").2 = [] :=
  claim2_setkvs_error_atomic dT0 hT0 [] "" .emptyInput (by decide)

/-- C8: a directive that is a bare registered subsystem name, such as site,
drives SetKVS into the out-of-range read of the missing key/value tail: the
call panics with the store untouched instead of returning the empty-key-set
error the spec prescribes. -/
theorem claim8_bare_subsys_panics (defT : String → Option KVS)
    (helpT : String → List HelpKV) (c : Config) :
    setKVS defT helpT c "site" = (.panicked, c) := by
  have hg : getSubSys "site" = .ok ("site", none, defaultTgt) := rfl
  simp [setKVS, setKVSCompute, hg]

theorem lookupTgt_setTgt_self (tgts : List (String × KVS)) (t : String) (v : KVS) :
    lookupTgt (setTgt tgts t v) t = some v := by
  induction tgts with
  | nil => simp [setTgt, lookupTgt]
  | cons tv rest ih =>
      by_cases h : tv.1 = t
      · simp [setTgt, h, lookupTgt]
      · simp [setTgt, h, lookupTgt, ih]

theorem lookupTgt_setTgt_ne (tgts : List (String × KVS)) (t : String) (v : KVS)
    (t' : String) (hne : t' ≠ t) :
    lookupTgt (setTgt tgts t v) t' = lookupTgt tgts t' := by
  induction tgts with
  | nil => simp [setTgt, lookupTgt, Ne.symm hne]
  | cons tv rest ih =>
      by_cases h : tv.1 = t
      · simp [setTgt, h, lookupTgt, Ne.symm hne]
      · by_cases h2 : tv.1 = t'
        · simp [setTgt, h, lookupTgt, h2, hne]
        · simp [setTgt, h, lookupTgt, h2, ih]

theorem lookupSub_setSub_self (c : Config) (s : String) (tgts : List (String × KVS)) :
    lookupSub (setSub c s tgts) s = some tgts := by
  induction c with
  | nil => simp [setSub, lookupSub]
  | cons blk rest ih =>
      by_cases h : blk.1 = s
      · simp [setSub, h, lookupSub]
      · simp [setSub, h, lookupSub, ih]

theorem lookupSub_setSub_ne (c : Config) (s : String) (tgts : List (String × KVS))
    (s' : String) (hne : s' ≠ s) :
    lookupSub (setSub c s tgts) s' = lookupSub c s' := by
  induction c with
  | nil => simp [setSub, lookupSub, Ne.symm hne]
  | cons blk rest ih =>
      by_cases h : blk.1 = s
      · simp [setSub, h, lookupSub, Ne.symm hne]
      · by_cases h2 : blk.1 = s'
        · simp [setSub, h, lookupSub, h2, hne]
        · simp [setSub, h, lookupSub, h2, ih]

theorem lookupSub_append_ne (c : Config) (s : String) (blk : List (String × KVS))
    (s' : String) (hne : s' ≠ s) :
    lookupSub (c ++ [(s, blk)]) s' = lookupSub c s' := by
  induction c with
  | nil => simp [lookupSub, Ne.symm hne]
  | cons b rest ih =>
      by_cases h : b.1 = s'
      · simp [lookupSub, h]
      · simp [lookupSub, h, ih]

theorem lookupSub_append_self (c : Config) (s : String) (blk : List (String × KVS))
    (h : lookupSub c s = none) :
    lookupSub (c ++ [(s, blk)]) s = some blk := by
  induction c with
  | nil => simp [lookupSub]
  | cons b rest ih =>
      by_cases hb : b.1 = s
      · simp [lookupSub, hb] at h
      · simp [lookupSub, hb] at h ⊢
        exact ih h

theorem lookup2_setCfg_self (c : Config) (s t : String) (v : KVS) :
    lookup2 (setCfg c s t v) s t = some v := by
  unfold setCfg
  rcases hs : lookupSub c s with _ | tgts
  · simp [lookup2, lookupSub_append_self c s _ hs, lookupTgt]
  · simp [lookup2, lookupSub_setSub_self, lookupTgt_setTgt_self]

theorem lookup2_setCfg_ne (c : Config) (s t : String) (v : KVS) (s' t' : String)
    (h : s' ≠ s ∨ t' ≠ t) :
    lookup2 (setCfg c s t v) s' t' = lookup2 c s' t' := by
  unfold setCfg
  by_cases hss : s' = s
  · rcases h with h | h
    · exact absurd hss h
    · subst hss
      rcases hs : lookupSub c s' with _ | tgts
      · simp [lookup2, lookupSub_append_self c s' _ hs, hs, lookupTgt, Ne.symm h]
      · simp [lookup2, lookupSub_setSub_self, hs, lookupTgt_setTgt_ne _ _ _ _ h]
  · rcases hs : lookupSub c s with _ | tgts
    · simp [lookup2, lookupSub_append_ne c s _ s' hss]
    · simp [lookup2, lookupSub_setSub_ne c s _ s' hss]

theorem setKVSCompute_ok_parse (defT : String → Option KVS)
    (helpT : String → List HelpKV) (c : Config) (s : String)
    (dyn : Bool) (sub tgt : String) (curr : KVS)
    (h : setKVSCompute defT helpT c s = .ok (dyn, sub, tgt, curr)) :
    ∃ tail, getSubSys s = .ok (sub, some tail, tgt) := by
  unfold setKVSCompute at h
  rcases hg : getSubSys s with e | ⟨a, b, t0⟩
  · rw [hg] at h; simp at h
  · rw [hg] at h
    rcases b with _ | tail
    · simp at h
    · refine ⟨tail, ?_⟩
      simp only at h
      split at h
      · simp at h
      · split at h
        · simp at h
        · split at h
          · simp at h
          · split at h
            · simp only [Outcome.ok.injEq, Prod.mk.injEq] at h
              obtain ⟨-, h2, h3, -⟩ := h
              subst h2
              subst h3
              rfl
            · simp at h

/-- C10: a successful SetKVS call addressing subsystem S and target T
leaves every store entry other than the pair of S and T unchanged; the
registered default table and help table are read-only parameters. -/
theorem claim10_setkvs_frame (defT : String → Option KVS)
    (helpT : String → List HelpKV) (c : Config) (s : String)
    (S T : String) (io : Option String) (dyn : Bool) (c' : Config)
    (hparse : getSubSys s = .ok (S, io, T))
    (hrun : setKVS defT helpT c s = (.ok dyn, c')) :
    ∀ s' t', s' ≠ S ∨ t' ≠ T → lookup2 c' s' t' = lookup2 c s' t' := by
  unfold setKVS at hrun
  rcases hc : setKVSCompute defT helpT c s with _ | e' | ⟨d0, sub, tgt, curr⟩ <;>
    rw [hc] at hrun <;> simp at hrun
  obtain ⟨tail, hg⟩ := setKVSCompute_ok_parse defT helpT c s d0 sub tgt curr hc
  rw [hparse] at hg
  simp only [Except.ok.injEq, Prod.mk.injEq] at hg
  obtain ⟨h1, -, h3⟩ := hg
  intro s' t' hne
  rw [← hrun.2, lookup2_setCfg_ne]
  rcases hne with hne | hne
  · exact Or.inl (by rw [← h1]; exact hne)
  · exact Or.inr (by rw [← h3]; exact hne)

theorem claim10_setkvs_frame_witness :
    lookup2 (setKVS (fun _ => some [⟨"name", ""⟩]) hT0
      [("site", [("_", ([] : KVS))])] "site name=rack0").2 "region" "_" =
    lookup2 [("site", [("_", ([] : KVS))])] "region" "_" :=
  claim10_setkvs_frame (fun _ => some [⟨"name", ""⟩]) hT0
    [("site", [("_", ([] : KVS))])] "site name=rack0" "site" "_"
    (some "name=rack0") false
    ((setKVS (fun _ => some [⟨"name", ""⟩]) hT0
      [("site", [("_", ([] : KVS))])] "site name=rack0").2)
    rfl (by decide) "region" "_" (Or.inl (by decide))

/-- C1: for an allow-listed subsystem and a parameter declared in its
default KVS, ResolveConfigParam prefers a set non-empty environment
variable with source Env, then a stored value with source Config, then the
compiled default with source Default; a subsystem outside the allow-list or
an unknown parameter yields an empty value with source Absent. -/
theorem claim1_resolve_precedence (defT : String → Option KVS)
    (env : String → String) (c : Config) (subSys target cfgParam : String) :
    (subSys ∉ resolvableSubsystems →
      resolveConfigParam defT env c subSys target cfgParam = ("", .absent)) ∧
    (subSys ∈ resolvableSubsystems →
      ((defT subSys).getD []).lookup cfgParam = none →
      resolveConfigParam defT env c subSys target cfgParam = ("", .absent)) ∧
    (subSys ∈ resolvableSubsystems → ∀ dv,
      ((defT subSys).getD []).lookup cfgParam = some dv →
      ((env (getEnvVarName subSys (if target = "" then defaultTgt else target) cfgParam) ≠ "" →
        resolveConfigParam defT env c subSys target cfgParam =
          (env (getEnvVarName subSys (if target = "" then defaultTgt else target) cfgParam), .envSrc)) ∧
       (env (getEnvVarName subSys (if target = "" then defaultTgt else target) cfgParam) = "" →
        ∀ kvs v, lookup2 c subSys (if target = "" then defaultTgt else target) = some kvs →
          kvs.lookup cfgParam = some v →
          resolveConfigParam defT env c subSys target cfgParam = (v, .cfgSrc)) ∧
       (env (getEnvVarName subSys (if target = "" then defaultTgt else target) cfgParam) = "" →
        lookup2 c subSys (if target = "" then defaultTgt else target) = none →
        resolveConfigParam defT env c subSys target cfgParam = (dv, .defSrc)) ∧
       (env (getEnvVarName subSys (if target = "" then defaultTgt else target) cfgParam) = "" →
        ∀ kvs, lookup2 c subSys (if target = "" then defaultTgt else target) = some kvs →
          kvs.lookup cfgParam = none →
          resolveConfigParam defT env c subSys target cfgParam = (dv, .defSrc)))) := by
  refine ⟨fun hmem => by simp [resolveConfigParam, hmem], ?_, ?_⟩
  · intro hmem hlk
    rcases hd : defT subSys with _ | defKVS
    · simp [resolveConfigParam, hmem, hd]
    · rw [hd] at hlk
      simp only [Option.getD_some] at hlk
      simp [resolveConfigParam, hmem, hd, hlk]
  · intro hmem dv hdv
    rcases hd : defT subSys with _ | defKVS
    · rw [hd] at hdv
      simp [KVS.lookup] at hdv
    · rw [hd] at hdv
      simp only [Option.getD_some] at hdv
      refine ⟨?_, ?_, ?_, ?_⟩
      · intro hev
        simp [resolveConfigParam, hmem, hd, hdv, hev]
      · intro hev kvs v hkvs hv
        simp [resolveConfigParam, hmem, hd, hdv, hev, hkvs, hv]
      · intro hev hkvs
        simp [resolveConfigParam, hmem, hd, hdv, hev, hkvs]
      · intro hev kvs hkvs hv
        simp [resolveConfigParam, hmem, hd, hdv, hev, hkvs, hv]

/-- Fixture default table declaring one OpenID parameter. -/
def dT1 : String → Option KVS :=
  fun s => if s = "identity_openid" then some [⟨"client_id", "D"⟩] else none

/-- Fixture environment with one OpenID variable set. -/
def env1 : String → String :=
  fun n => if n = "MINIO_IDENTITY_OPENID_CLIENT_ID" then "E" else ""

/-- Fixture store with one stored OpenID value. -/
def c1fix : Config := [("identity_openid", [("_", [⟨"client_id", "C"⟩])])]

theorem claim1_resolve_precedence_witness :
    resolveConfigParam dT1 env1 c1fix "identity_openid" "" "client_id" = ("E", .envSrc) :=
  ((claim1_resolve_precedence dT1 env1 c1fix "identity_openid" "" "client_id").2.2
    (by decide) "D" (by decide)).1 (by decide)

theorem lookupTgt_delTgtList_self (tgts : List (String × KVS)) (t : String) :
    lookupTgt (delTgtList t tgts) t = none := by
  induction tgts with
  | nil => simp [delTgtList, lookupTgt]
  | cons tv rest ih =>
      by_cases h : tv.1 = t
      · simp [delTgtList, h, ih]
      · simp [delTgtList, h, lookupTgt, ih]

theorem lookupTgt_delTgtList_ne (tgts : List (String × KVS)) (t t' : String)
    (hne : t' ≠ t) :
    lookupTgt (delTgtList t tgts) t' = lookupTgt tgts t' := by
  induction tgts with
  | nil => simp [delTgtList]
  | cons tv rest ih =>
      by_cases h : tv.1 = t
      · simp [delTgtList, h, ih, lookupTgt, Ne.symm hne]
      · by_cases h2 : tv.1 = t'
        · simp [delTgtList, h, lookupTgt, h2, hne]
        · simp [delTgtList, h, lookupTgt, h2, ih]

theorem lookupSub_delTgt_ne (c : Config) (s t s' : String) (hne : s' ≠ s) :
    lookupSub (delTgt c s t) s' = lookupSub c s' := by
  induction c with
  | nil => simp [delTgt]
  | cons blk rest ih =>
      by_cases h : blk.1 = s
      · simp [delTgt, h, lookupSub, Ne.symm hne]
      · by_cases h2 : blk.1 = s'
        · simp [delTgt, h, lookupSub, h2, hne]
        · simp [delTgt, h, lookupSub, h2, ih]

theorem lookupSub_delTgt_self (c : Config) (s t : String) :
    lookupSub (delTgt c s t) s =
      (lookupSub c s).map (fun tgts => delTgtList t tgts) := by
  induction c with
  | nil => simp [delTgt, lookupSub]
  | cons blk rest ih =>
      by_cases h : blk.1 = s
      · simp [delTgt, h, lookupSub]
      · simp [delTgt, h, lookupSub, ih]

theorem lookupSub_removeSub_self (c : Config) (s : String) :
    lookupSub (removeSub s c) s = none := by
  induction c with
  | nil => simp [removeSub, lookupSub]
  | cons blk rest ih =>
      by_cases h : blk.1 = s
      · simpa [removeSub, h] using ih
      · simpa [removeSub, h, lookupSub] using ih

/-- Evaluation of a targeted GetKVS query on a missing subsystem target. -/
theorem getKVS_missing_target (hord hdep : List HelpKV) (defT : String → Option KVS)
    (c : Config) (q sub t : String)
    (hq : q ≠ "") (hf : goFields q = [q])
    (hsp : splitFirst q ':' = (sub, some t))
    (hmem : sub ∈ subSystemsList) (ht : t ≠ "")
    (hlk : lookup2 c sub t = none) :
    getKVS hord hdep defT c q = .failed (.targetDoesntExist q) := by
  simp [getKVS, hq, hf, hsp, hmem, ht, hlk]

/-- C5: a single-token delete directive removes the addressed entry
unconditionally when the subsystem is unregistered; on a registered
subsystem a missing entry yields the already-deleted error with the store
unchanged, and a present entry is removed exactly, after which any targeted
GetKVS for that subsystem and target fails with doesnt-exist. -/
theorem claim5_delkvs (c : Config) (q sub : String) (tgtOpt : Option String)
    (hf : goFields q = [q])
    (hsp : splitFirst q ':' = (sub, tgtOpt))
    (hf2 : goFields (sub ++ ":" ++ tgtOpt.getD defaultTgt) =
      [sub ++ ":" ++ tgtOpt.getD defaultTgt])
    (hsp2 : splitFirst (sub ++ ":" ++ tgtOpt.getD defaultTgt) ':' =
      (sub, some (tgtOpt.getD defaultTgt))) :
    (sub ∉ subSystemsList →
      (delKVS c q).1 = .ok () ∧ ∀ t, lookup2 (delKVS c q).2 sub t = none) ∧
    (sub ∈ subSystemsList → tgtOpt ≠ some "" →
      lookup2 c sub (tgtOpt.getD defaultTgt) = none →
      delKVS c q = (.failed (.alreadyDeleted q), c)) ∧
    (sub ∈ subSystemsList → tgtOpt ≠ some "" →
      ∀ kvs, lookup2 c sub (tgtOpt.getD defaultTgt) = some kvs →
      (delKVS c q).1 = .ok () ∧
      lookup2 (delKVS c q).2 sub (tgtOpt.getD defaultTgt) = none ∧
      (∀ s' t', s' ≠ sub ∨ t' ≠ tgtOpt.getD defaultTgt →
        lookup2 (delKVS c q).2 s' t' = lookup2 c s' t') ∧
      ∀ hord hdep defT,
        getKVS hord hdep defT (delKVS c q).2 (sub ++ ":" ++ tgtOpt.getD defaultTgt) =
          .failed (.targetDoesntExist (sub ++ ":" ++ tgtOpt.getD defaultTgt))) := by
  have hq : q ≠ "" := by
    intro h
    rw [h] at hf
    simp [goFields, goFieldsAux] at hf
  have htne : tgtOpt ≠ some "" → tgtOpt.getD defaultTgt ≠ "" := by
    intro h
    rcases tgtOpt with _ | t
    · simp [defaultTgt]
    · simpa using h
  refine ⟨?_, ?_, ?_⟩
  · intro hmem
    have hrun : delKVS c q = (.ok (), removeSub sub c) := by
      simp [delKVS, hq, hf, hsp, hmem]
    rw [hrun]
    exact ⟨rfl, fun t => by simp [lookup2, lookupSub_removeSub_self]⟩
  · intro hmem hne hlk
    rcases hto : tgtOpt with _ | t
    · rw [hto] at hlk
      simp only [Option.getD_none] at hlk
      simp [delKVS, hq, hf, hsp, hto, hmem, hlk]
    · have ht : t ≠ "" := by simpa [hto] using hne
      rw [hto] at hlk
      simp only [Option.getD_some] at hlk
      simp [delKVS, hq, hf, hsp, hto, hmem, ht, hlk]
  · intro hmem hne kvs hlk
    have ht := htne hne
    have hrun : delKVS c q = (.ok (), delTgt c sub (tgtOpt.getD defaultTgt)) := by
      rcases hto : tgtOpt with _ | t
      · rw [hto] at hlk
        simp only [Option.getD_none] at hlk
        simp [delKVS, hq, hf, hsp, hto, hmem, hlk]
      · have ht' : t ≠ "" := by simpa [hto] using hne
        rw [hto] at hlk
        simp only [Option.getD_some] at hlk
        simp [delKVS, hq, hf, hsp, hto, hmem, ht', hlk]
    rw [hrun]
    have hgone : lookup2 (delTgt c sub (tgtOpt.getD defaultTgt)) sub
        (tgtOpt.getD defaultTgt) = none := by
      simp only [lookup2, lookupSub_delTgt_self]
      rcases hs : lookupSub c sub with _ | tgts
      · simp
      · simp [lookupTgt_delTgtList_self]
    refine ⟨rfl, hgone, ?_, ?_⟩
    · intro s' t' hd
      by_cases hss : s' = sub
      · rcases hd with hd | hd
        · exact absurd hss hd
        · subst hss
          simp only [lookup2, lookupSub_delTgt_self]
          rcases hs : lookupSub c s' with _ | tgts
          · simp
          · simp [lookupTgt_delTgtList_ne _ _ _ hd]
      · simp [lookup2, lookupSub_delTgt_ne c sub _ s' hss]
    · intro hord hdep defT
      have hq2 : sub ++ ":" ++ tgtOpt.getD defaultTgt ≠ "" := by
        intro h
        rw [h] at hf2
        simp [goFields, goFieldsAux] at hf2
      exact getKVS_missing_target hord hdep defT _ _ sub _ hq2 hf2 hsp2 hmem ht hgone

/-- Fixture store obtained after creating the primary webhook target. -/
def c5fix : Config := [("notify_webhook", [("primary", [⟨"endpoint", "e"⟩])])]

theorem claim5_delkvs_witness :
    delKVS ([] : Config) "notify_webhook:primary" =
      (.failed (.alreadyDeleted "notify_webhook:primary"), ([] : Config)) :=
  (claim5_delkvs [] "notify_webhook:primary" "notify_webhook" (some "primary")
    (by decide) (by decide) (by decide) (by decide)).2.1
    (by decide) (by decide) (by decide)

/-- C9 counterexample: the bare name notify is a strict front piece of ten
registered subsystems and an exact match of none, yet GetKVS accepts it and
returns a listing instead of the unknown-sub-system error. -/
theorem claim9_multi_match_accepted :
    getKVS [] [] dT0 [] "notify" = .ok [] ∧
    "notify" ∉ subSystemsList ∧
    2 ≤ (subSystemsList.filter (fun m => startsWithS m "notify")).length := by
  refine ⟨by decide, by decide, by decide⟩

/-- The listing contribution of one help entry: nothing on a prefix miss,
otherwise the optional synthetic default entry followed by every stored
target of the subsystem. -/
def getKVSSuffix (defT : String → Option KVS) (c : Config) (pre : String)
    (hkv : HelpKV) : List Target :=
  if ¬ startsWithS hkv.key pre then []
  else
    (if (get2 c hkv.key defaultTgt).isEmpty then [⟨hkv.key, (defT hkv.key).getD []⟩]
     else []) ++
    (getTgts c hkv.key).map (getKVSEntry defT hkv.key)

theorem foldl_append_singleton {α β : Type} (f : α → β) (l : List α) :
    ∀ base : List β, l.foldl (fun a x => a ++ [f x]) base = base ++ l.map f := by
  induction l with
  | nil => intro base; simp
  | cons x t ih =>
      intro base
      simp only [List.foldl_cons, List.map_cons, ih]
      simp

theorem getKVSStep_eq (defT : String → Option KVS) (c : Config) (pre : String)
    (ts : List Target) (hkv : HelpKV) :
    getKVSStep defT c pre ts hkv = ts ++ getKVSSuffix defT c pre hkv := by
  by_cases hm : ¬ startsWithS hkv.key pre
  · simp [getKVSStep, getKVSSuffix, hm]
  · by_cases he : (get2 c hkv.key defaultTgt).isEmpty
    · simp [getKVSStep, getKVSSuffix, hm, he, foldl_append_singleton]
    · simp [getKVSStep, getKVSSuffix, hm, he, foldl_append_singleton]

theorem getKVSStep_fold_mono (defT : String → Option KVS) (c : Config)
    (pre : String) (x : Target) (l : List HelpKV) :
    ∀ ts : List Target, x ∈ ts → x ∈ l.foldl (getKVSStep defT c pre) ts := by
  induction l with
  | nil => intro ts h; exact h
  | cons hkv t ih =>
      intro ts h
      simp only [List.foldl_cons]
      refine ih _ ?_
      rw [getKVSStep_eq]
      exact List.mem_append_left _ h

theorem getKVSStep_fold_mem (defT : String → Option KVS) (c : Config)
    (pre : String) (l : List HelpKV) (hkv : HelpKV) (hmem : hkv ∈ l)
    (hmatch : startsWithS hkv.key pre = true)
    (tv : String × KVS) (htv : tv ∈ getTgts c hkv.key) :
    ∀ ts : List Target,
      getKVSEntry defT hkv.key tv ∈ l.foldl (getKVSStep defT c pre) ts := by
  induction l with
  | nil => cases hmem
  | cons h0 t ih =>
      intro ts
      simp only [List.foldl_cons]
      rcases List.mem_cons.mp hmem with he | hm
      · subst he
        refine getKVSStep_fold_mono defT c pre _ t _ ?_
        rw [getKVSStep_eq]
        refine List.mem_append_right _ ?_
        simp only [getKVSSuffix, hmatch, not_true_eq_false, if_false]
        exact List.mem_append_right _ (List.mem_map_of_mem _ htv)
      · exact ih hm _

/-- C9 amended: a bare single-token name that is a front piece of at least
one registered subsystem is accepted by GetKVS, which returns a listing
holding, for every help-declared subsystem whose name the queried name is a
front piece of, every stored target of that subsystem back-filled from its
defaults; only a name that is a front piece of no registered subsystem
falls through to the unknown-sub-system error. -/
theorem claim9_prefix_rule (hord hdep : List HelpKV) (defT : String → Option KVS)
    (c : Config) (q : String)
    (hf : goFields q = [q])
    (hsp : splitFirst q ':' = (q, none))
    (hpre : subSystemsList.any (fun m => startsWithS m q) = true) :
    ∃ ts, getKVS hord hdep defT c q = .ok ts ∧
      ∀ hkv ∈ hord ++ hdep, startsWithS hkv.key q = true →
        ∀ tv ∈ getTgts c hkv.key, getKVSEntry defT hkv.key tv ∈ ts := by
  have hq : q ≠ "" := by
    intro h
    rw [h] at hf
    simp [goFields, goFieldsAux] at hf
  have hok : getKVS hord hdep defT c q =
      .ok ((hord ++ hdep).foldl (getKVSStep defT c q) []) := by
    simp [getKVS, hq, hf, hsp, hpre]
  exact ⟨_, hok, fun hkv hmem hmatch tv htv =>
    getKVSStep_fold_mem defT c q (hord ++ hdep) hkv hmem hmatch tv htv []⟩

/-- Fixture help order declaring the webhook subsystem. -/
def h9fix : List HelpKV := [⟨"notify_webhook", true, false⟩]

/-- Fixture store with one stored webhook target. -/
def c9fix : Config := [("notify_webhook", [("a", ([] : KVS))])]

theorem claim9_prefix_rule_witness :
    ∃ ts, getKVS h9fix [] dT0 c9fix "notify" = .ok ts ∧
      ∀ hkv ∈ h9fix ++ [], startsWithS hkv.key "notify" = true →
        ∀ tv ∈ getTgts c9fix hkv.key, getKVSEntry dT0 hkv.key tv ∈ ts :=
  claim9_prefix_rule h9fix [] dT0 c9fix "notify" (by decide) (by decide) (by decide)

/-- Evaluation of setKVSCompute on a well-parsed directive, down to the
required-key check and the store-presence guard. -/
theorem setKVSCompute_eval (defT : String → Option KVS)
    (helpT : String → List HelpKV) (c : Config) (s : String)
    (subSys tail tgt : String) (kvs0 : KVS)
    (hg : getSubSys s = .ok (subSys, some tail, tgt))
    (hfe : kvFields tail ((defT subSys).getD []).keys ≠ [])
    (hp : parsePairs (kvFields tail ((defT subSys).getD []).keys) [] "" = .ok kvs0) :
    setKVSCompute defT helpT c s =
      (match
        (if enabledOf ((defT subSys).getD [])
              (mergedOf ((defT subSys).getD []) c subSys tgt
                (withEnableDefault ((defT subSys).getD []) kvs0)) then
          firstViolation (helpT subSys)
            (mergedOf ((defT subSys).getD []) c subSys tgt
              (withEnableDefault ((defT subSys).getD []) kvs0))
        else none) with
      | some k => .failed (.notOptional k subSys)
      | none =>
          if (lookupSub c subSys).isSome then
            .ok (subSystemsDynamic.contains subSys, subSys, tgt,
              mergedOf ((defT subSys).getD []) c subSys tgt
                (withEnableDefault ((defT subSys).getD []) kvs0))
          else .panicked) := by
  have hfe' : (kvFields tail ((defT subSys).getD []).keys).isEmpty = false := by
    rcases hl : kvFields tail ((defT subSys).getD []).keys with _ | ⟨f, fs⟩
    · exact absurd hl hfe
    · rfl
  simp [setKVSCompute, hg, hfe', hp]

/-- C3: after SetKVS merges a well-parsed directive over the back-filled
stored entry, an enabled target with some non-optional help key empty in
the merged KVS produces the not-optional error naming such a key with the
store unchanged, while a disabled target tolerates empty required keys and
stores the merged KVS. -/
theorem claim3_required_keys (defT : String → Option KVS)
    (helpT : String → List HelpKV) (c : Config) (s : String)
    (subSys tail tgt : String) (kvs0 : KVS) (defKVS merged : KVS)
    (hg : getSubSys s = .ok (subSys, some tail, tgt))
    (hsub : (lookupSub c subSys).isSome)
    (hfe : kvFields tail ((defT subSys).getD []).keys ≠ [])
    (hp : parsePairs (kvFields tail ((defT subSys).getD []).keys) [] "" = .ok kvs0)
    (hdk : (defT subSys).getD [] = defKVS)
    (hm : mergedOf defKVS c subSys tgt (withEnableDefault defKVS kvs0) = merged) :
    (enabledOf defKVS merged = true →
      (∃ h ∈ helpT subSys, h.optional = false ∧ merged.get h.key = "") →
      ∃ k, setKVS defT helpT c s = (.failed (.notOptional k subSys), c) ∧
        ∃ h ∈ helpT subSys, h.key = k ∧ h.optional = false ∧ merged.get k = "") ∧
    (enabledOf defKVS merged = false →
      setKVS defT helpT c s =
        (.ok (subSystemsDynamic.contains subSys), setCfg c subSys tgt merged) ∧
      lookup2 (setKVS defT helpT c s).2 subSys tgt = some merged) := by
  have heval := setKVSCompute_eval defT helpT c s subSys tail tgt kvs0 hg hfe hp
  rw [hdk, hm] at heval
  constructor
  · intro hen hviol
    have hfind : (List.find? (fun h => !h.optional && merged.get h.key == "")
        (helpT subSys)).isSome := by
      obtain ⟨h, hmem, hopt, hempty⟩ := hviol
      rw [List.find?_isSome]
      exact ⟨h, hmem, by simp [hopt, hempty]⟩
    obtain ⟨hv, hfv⟩ := Option.isSome_iff_exists.mp hfind
    have hpred := List.find?_some hfv
    have hmemv := List.mem_of_find?_eq_some hfv
    simp only [Bool.and_eq_true, Bool.not_eq_true', beq_iff_eq] at hpred
    refine ⟨hv.key, ?_, hv, hmemv, rfl, hpred.1, hpred.2⟩
    have hcomp : setKVSCompute defT helpT c s = .failed (.notOptional hv.key subSys) := by
      rw [heval]
      simp [hen, firstViolation, hfv]
    simp [setKVS, hcomp]
  · intro hen
    have hcomp : setKVSCompute defT helpT c s =
        .ok (subSystemsDynamic.contains subSys, subSys, tgt, merged) := by
      rw [heval]
      simp [hen, hsub]
    refine ⟨by simp [setKVS, hcomp], ?_⟩
    simp [setKVS, hcomp, lookup2_setCfg_self]

/-- Fixture defaults for a webhook-like subsystem with a state key and an
endpoint key. -/
def dT2 : String → Option KVS :=
  fun _ => some [⟨"enable", "on"⟩, ⟨"endpoint", ""⟩]

/-- Fixture help table flagging the endpoint key as required. -/
def hT2 : String → List HelpKV :=
  fun _ => [⟨"endpoint", false, false⟩]

theorem claim3_required_keys_witness :
    setKVS dT2 hT2 [("notify_webhook", [("_", ([] : KVS))])]
        "notify_webhook:t enable=off" =
      (.ok false, setCfg [("notify_webhook", [("_", ([] : KVS))])] "notify_webhook" "t"
        [⟨"enable", "off"⟩, ⟨"endpoint", ""⟩]) :=
  ((claim3_required_keys dT2 hT2 [("notify_webhook", [("_", ([] : KVS))])]
    "notify_webhook:t enable=off" "notify_webhook" "enable=off" "t"
    [⟨"enable", "off"⟩] [⟨"enable", "on"⟩, ⟨"endpoint", ""⟩]
    [⟨"enable", "off"⟩, ⟨"endpoint", ""⟩]
    rfl (by decide) (by decide) rfl (by decide) (by decide)).2 (by decide)).1

/-- Sequential redaction of one KVS over a help entry list, the per-target
effect of the redaction loop. -/
def redactKVS (hl : List HelpKV) (kvs : KVS) : KVS :=
  hl.foldl (fun kvs h => if h.sensitive then redactKVSOne h.key kvs else kvs) kvs

theorem redactKVSOne_keys (k : String) (kvs : KVS) :
    List.map KV.key (redactKVSOne k kvs) = List.map KV.key kvs := by
  induction kvs with
  | nil => rfl
  | cons kv rest ih =>
      by_cases h : kv.key = k ∧ kv.value ≠ ""
      · simpa [redactKVSOne, h] using ih
      · simpa [redactKVSOne, h] using ih

theorem redactKVS_keys (hl : List HelpKV) (kvs : KVS) :
    List.map KV.key (redactKVS hl kvs) = List.map KV.key kvs := by
  induction hl generalizing kvs with
  | nil => rfl
  | cons h hl ih =>
      simp only [redactKVS, List.foldl_cons]
      by_cases hs : h.sensitive
      · rw [show (List.foldl (fun kvs h => if h.sensitive then redactKVSOne h.key kvs else kvs)
          (if h.sensitive then redactKVSOne h.key kvs else kvs) hl) =
          redactKVS hl (if h.sensitive then redactKVSOne h.key kvs else kvs) from rfl]
        rw [ih]
        simp [hs, redactKVSOne_keys]
      · rw [show (List.foldl (fun kvs h => if h.sensitive then redactKVSOne h.key kvs else kvs)
          (if h.sensitive then redactKVSOne h.key kvs else kvs) hl) =
          redactKVS hl (if h.sensitive then redactKVSOne h.key kvs else kvs) from rfl]
        rw [ih]
        simp [hs]

/-- Every value stored under the key is empty or the marker. -/
def keyRed (k : String) (kvs : KVS) : Prop :=
  ∀ kv ∈ kvs, kv.key = k → kv.value = "" ∨ kv.value = marker

theorem keyRed_redactKVSOne_self (k : String) (kvs : KVS) :
    keyRed k (redactKVSOne k kvs) := by
  intro kv hmem hkey
  simp only [redactKVSOne, List.mem_map] at hmem
  obtain ⟨pre, hpre, heq⟩ := hmem
  by_cases h : pre.key = k ∧ pre.value ≠ ""
  · rw [if_pos h] at heq
    rw [← heq]
    exact Or.inr rfl
  · rw [if_neg h] at heq
    subst heq
    rcases Decidable.not_and_iff_or_not.mp h with h1 | h2
    · exact absurd hkey h1
    · exact Or.inl (Decidable.not_not.mp h2)

theorem keyRed_redactKVSOne_mono (k k' : String) (kvs : KVS) (h : keyRed k kvs) :
    keyRed k (redactKVSOne k' kvs) := by
  intro kv hmem hkey
  simp only [redactKVSOne, List.mem_map] at hmem
  obtain ⟨pre, hpre, heq⟩ := hmem
  by_cases hc : pre.key = k' ∧ pre.value ≠ ""
  · rw [if_pos hc] at heq
    rw [← heq]
    exact Or.inr rfl
  · rw [if_neg hc] at heq
    subst heq
    exact h pre hpre hkey

theorem keyRed_redactKVS_mono (k : String) (hl : List HelpKV) (kvs : KVS)
    (h : keyRed k kvs) : keyRed k (redactKVS hl kvs) := by
  induction hl generalizing kvs with
  | nil => exact h
  | cons h0 hl ih =>
      simp only [redactKVS, List.foldl_cons]
      by_cases hs : h0.sensitive
      · simp only [hs, if_true]
        exact ih _ (keyRed_redactKVSOne_mono k h0.key kvs h)
      · simp only [hs]
        simpa using ih _ h

theorem keyRed_redactKVS (hl : List HelpKV) (kvs : KVS) (h : HelpKV)
    (hmem : h ∈ hl) (hs : h.sensitive = true) :
    keyRed h.key (redactKVS hl kvs) := by
  induction hl generalizing kvs with
  | nil => cases hmem
  | cons h0 hl ih =>
      simp only [redactKVS, List.foldl_cons]
      rcases List.mem_cons.mp hmem with he | hm
      · subst he
        simp only [hs, if_true]
        exact keyRed_redactKVS_mono h.key hl _ (keyRed_redactKVSOne_self h.key kvs)
      · exact ih _ hm

theorem redactBlock_eq_map (hl : List HelpKV) (tgts : List (String × KVS)) :
    redactBlock hl tgts = tgts.map (fun tv => (tv.1, redactKVS hl tv.2)) := by
  induction hl generalizing tgts with
  | nil => simp [redactBlock, redactKVS]
  | cons h hl ih =>
      simp only [redactBlock, List.foldl_cons]
      rw [show List.foldl redactBlockStep (redactBlockStep tgts h) hl =
        redactBlock hl (redactBlockStep tgts h) from rfl]
      rw [ih]
      by_cases hs : h.sensitive
      · simp [redactBlockStep, hs, List.map_map, redactKVS, Function.comp]
      · simp [redactBlockStep, hs, redactKVS]

theorem lookupSub_mapBlocks (c : Config)
    (f : String → List (String × KVS) → List (String × KVS)) (s : String) :
    lookupSub (c.map (fun blk => (blk.1, f blk.1 blk.2))) s =
      (lookupSub c s).map (f s) := by
  induction c with
  | nil => rfl
  | cons blk rest ih =>
      by_cases h : blk.1 = s
      · simp [lookupSub, h]
      · simp [lookupSub, h, ih]

theorem lookupTgt_mapTgts (tgts : List (String × KVS)) (g : KVS → KVS) (t : String) :
    lookupTgt (tgts.map (fun tv => (tv.1, g tv.2))) t = (lookupTgt tgts t).map g := by
  induction tgts with
  | nil => rfl
  | cons tv rest ih =>
      by_cases h : tv.1 = t
      · simp [lookupTgt, h]
      · simp [lookupTgt, h, ih]

/-- Evaluation of DelKVS on the credentials directive. -/
theorem delKVS_cred (nc : Config) :
    (delKVS nc "credentials").2 =
      if (lookup2 nc "credentials" defaultTgt).isSome then
        delTgt nc "credentials" defaultTgt
      else nc := by
  have h1 : goFields "credentials" = ["credentials"] := rfl
  have h2 : splitFirst "credentials" ':' = ("credentials", none) := rfl
  have h3 : "credentials" ∈ subSystemsList := by decide
  have h0 : ("credentials" : String) ≠ "" := by decide
  by_cases h4 : (lookup2 nc "credentials" defaultTgt).isSome
  · simp [delKVS, h0, h1, h2, h3, h4]
  · simp [delKVS, h0, h1, h2, h3, h4]

/-- Redaction leaves the block structure of every non-credentials
subsystem a per-target redactKVS image of the clone. -/
theorem lookup2_redact_frame (helpT : String → List HelpKV)
    (defT : String → Option KVS) (c : Config) (s t : String)
    (hs : s ≠ "credentials") :
    lookup2 (redactSensitiveInfo helpT defT c) s t =
      (lookup2 (cloneCfg defT c) s t).map (redactKVS (helpT s)) := by
  unfold redactSensitiveInfo
  rw [delKVS_cred]
  have hmap :
      lookupSub ((cloneCfg defT c).map
        (fun blk => (blk.1, redactBlock (helpT blk.1) blk.2))) s =
      (lookupSub (cloneCfg defT c) s).map (redactBlock (helpT s)) :=
    lookupSub_mapBlocks (cloneCfg defT c) (fun n tg => redactBlock (helpT n) tg) s
  by_cases hdel : (lookup2 ((cloneCfg defT c).map
      (fun blk => (blk.1, redactBlock (helpT blk.1) blk.2))) "credentials" defaultTgt).isSome
  · rw [if_pos hdel]
    rw [show lookup2 (delTgt ((cloneCfg defT c).map
        (fun blk => (blk.1, redactBlock (helpT blk.1) blk.2))) "credentials" defaultTgt) s t =
      (lookupSub (delTgt ((cloneCfg defT c).map
        (fun blk => (blk.1, redactBlock (helpT blk.1) blk.2))) "credentials" defaultTgt) s).bind
        (fun tgts => lookupTgt tgts t) from rfl]
    rw [lookupSub_delTgt_ne _ _ _ _ hs, hmap]
    rcases hlk : lookupSub (cloneCfg defT c) s with _ | tgts
    · simp [lookup2, hlk]
    · simp only [Option.map_some', Option.some_bind]
      rw [redactBlock_eq_map, lookupTgt_mapTgts]
      simp [lookup2, hlk]
  · rw [if_neg hdel]
    rw [show lookup2 ((cloneCfg defT c).map
        (fun blk => (blk.1, redactBlock (helpT blk.1) blk.2))) s t =
      (lookupSub ((cloneCfg defT c).map
        (fun blk => (blk.1, redactBlock (helpT blk.1) blk.2))) s).bind
        (fun tgts => lookupTgt tgts t) from rfl]
    rw [hmap]
    rcases hlk : lookupSub (cloneCfg defT c) s with _ | tgts
    · simp [lookup2, hlk]
    · simp only [Option.map_some', Option.some_bind]
      rw [redactBlock_eq_map, lookupTgt_mapTgts]
      simp [lookup2, hlk]

/-- Every entry observable in the redacted store is the redactKVS image of
the corresponding clone entry. -/
theorem lookup2_redact_some (helpT : String → List HelpKV)
    (defT : String → Option KVS) (c : Config) (s t : String) (kvs : KVS)
    (h : lookup2 (redactSensitiveInfo helpT defT c) s t = some kvs) :
    ∃ kvs0, lookup2 (cloneCfg defT c) s t = some kvs0 ∧
      kvs = redactKVS (helpT s) kvs0 := by
  by_cases hs : s = "credentials"
  · subst hs
    unfold redactSensitiveInfo at h
    rw [delKVS_cred] at h
    have hmap :
        lookupSub ((cloneCfg defT c).map
          (fun blk => (blk.1, redactBlock (helpT blk.1) blk.2))) "credentials" =
        (lookupSub (cloneCfg defT c) "credentials").map
          (redactBlock (helpT "credentials")) :=
      lookupSub_mapBlocks (cloneCfg defT c) (fun n tg => redactBlock (helpT n) tg) _
    by_cases hdel : (lookup2 ((cloneCfg defT c).map
        (fun blk => (blk.1, redactBlock (helpT blk.1) blk.2))) "credentials" defaultTgt).isSome
    · rw [if_pos hdel] at h
      rw [show ∀ x, lookup2 x "credentials" t =
          (lookupSub x "credentials").bind (fun tgts => lookupTgt tgts t)
        from fun x => rfl] at h
      rw [lookupSub_delTgt_self, hmap] at h
      rcases hlk : lookupSub (cloneCfg defT c) "credentials" with _ | tgts
      · rw [hlk] at h; simp at h
      · rw [hlk] at h
        simp only [Option.map_some', Option.some_bind] at h
        by_cases ht : t = defaultTgt
        · rw [ht, lookupTgt_delTgtList_self] at h
          cases h
        · rw [lookupTgt_delTgtList_ne _ _ _ ht] at h
          rw [redactBlock_eq_map, lookupTgt_mapTgts] at h
          rcases hlt : lookupTgt tgts t with _ | kvs0
          · rw [hlt] at h; cases h
          · rw [hlt] at h
            simp only [Option.map_some', Option.some.injEq] at h
            exact ⟨kvs0, by simp [lookup2, hlk, hlt], h.symm⟩
    · rw [if_neg hdel] at h
      rw [show ∀ x, lookup2 x "credentials" t =
          (lookupSub x "credentials").bind (fun tgts => lookupTgt tgts t)
        from fun x => rfl] at h
      rw [hmap] at h
      rcases hlk : lookupSub (cloneCfg defT c) "credentials" with _ | tgts
      · rw [hlk] at h; simp at h
      · rw [hlk] at h
        simp only [Option.map_some', Option.some_bind] at h
        rw [redactBlock_eq_map, lookupTgt_mapTgts] at h
        rcases hlt : lookupTgt tgts t with _ | kvs0
        · rw [hlt] at h; cases h
        · rw [hlt] at h
          simp only [Option.map_some', Option.some.injEq] at h
          exact ⟨kvs0, by simp [lookup2, hlk, hlt], h.symm⟩
  · rw [lookup2_redact_frame helpT defT c s t hs] at h
    rcases hlk : lookup2 (cloneCfg defT c) s t with _ | kvs0
    · rw [hlk] at h; cases h
    · rw [hlk] at h
      simp only [Option.map_some', Option.some.injEq] at h
      exact ⟨kvs0, rfl, h.symm⟩

/-- The default target of the credentials subsystem is never observable in
a redacted store. -/
theorem lookup2_redact_cred_default (helpT : String → List HelpKV)
    (defT : String → Option KVS) (c : Config) :
    lookup2 (redactSensitiveInfo helpT defT c) "credentials" defaultTgt = none := by
  unfold redactSensitiveInfo
  rw [delKVS_cred]
  by_cases hdel : (lookup2 ((cloneCfg defT c).map
      (fun blk => (blk.1, redactBlock (helpT blk.1) blk.2))) "credentials" defaultTgt).isSome
  · rw [if_pos hdel]
    rw [show ∀ x, lookup2 x "credentials" defaultTgt =
        (lookupSub x "credentials").bind (fun tgts => lookupTgt tgts defaultTgt)
      from fun x => rfl]
    rw [lookupSub_delTgt_self]
    rcases hcl : lookupSub ((cloneCfg defT c).map
        (fun blk => (blk.1, redactBlock (helpT blk.1) blk.2))) "credentials" with _ | tgts
    · simp [hcl]
    · simp [hcl, lookupTgt_delTgtList_self]
  · rw [if_neg hdel]
    exact Option.not_isSome_iff_eq_none.mp hdel

/-- Fixture store holding a non-default credentials target, which only the
raw map type can carry. -/
def c4fix : Config := [("credentials", [("foo", [⟨"access_key", "x"⟩])])]

/-- C4 counterexample: RedactSensitiveInfo deletes only the credentials
default target, so a non-default credentials target survives the redacted
copy and is observable, against the entirely-absent claim. -/
theorem claim4_credentials_target_survives :
    lookup2 (redactSensitiveInfo hT0 dT0 c4fix) "credentials" "foo" =
      some [⟨"access_key", "x"⟩] := by decide

/-- C4 amended: in the redacted copy every non-empty value stored under a
key flagged sensitive for its subsystem is the fixed marker; for every
subsystem other than credentials the key sequence of every target equals
that of the clone, so keys remain present; and the default target of the
credentials subsystem is absent.  Non-default credentials targets, which
the directive API cannot create, are not removed.  The original store is a
read-only argument of the pure embedding. -/
theorem claim4_redact (helpT : String → List HelpKV)
    (defT : String → Option KVS) (c : Config) :
    (∀ s t kvs kv, lookup2 (redactSensitiveInfo helpT defT c) s t = some kvs →
      kv ∈ kvs → (∃ h ∈ helpT s, h.sensitive = true ∧ h.key = kv.key) →
      kv.value ≠ "" → kv.value = marker) ∧
    (∀ s t, s ≠ "credentials" →
      Option.map (List.map KV.key) (lookup2 (redactSensitiveInfo helpT defT c) s t) =
      Option.map (List.map KV.key) (lookup2 (cloneCfg defT c) s t)) ∧
    lookup2 (redactSensitiveInfo helpT defT c) "credentials" defaultTgt = none := by
  refine ⟨?_, ?_, lookup2_redact_cred_default helpT defT c⟩
  · intro s t kvs kv h hmem hsens hne
    obtain ⟨kvs0, hclone, hred⟩ := lookup2_redact_some helpT defT c s t kvs h
    obtain ⟨hh, hhmem, hhs, hhkey⟩ := hsens
    subst hred
    rcases keyRed_redactKVS (helpT s) kvs0 hh hhmem hhs kv hmem hhkey.symm with h0 | h0
    · exact absurd h0 hne
    · exact h0
  · intro s t hs
    rw [lookup2_redact_frame helpT defT c s t hs]
    rcases lookup2 (cloneCfg defT c) s t with _ | kvs0
    · rfl
    · simp [redactKVS_keys]

/-- Fixture help table flagging the secret key as sensitive. -/
def hT3 : String → List HelpKV := fun _ => [⟨"secret", false, true⟩]

/-- Fixture store holding a sensitive value. -/
def c4w : Config := [("notify_webhook", [("_", [⟨"secret", "secret123"⟩])])]

theorem claim4_redact_witness :
    (⟨"secret", marker⟩ : KV).value = marker :=
  (claim4_redact hT3 dT0 c4w).1 "notify_webhook" "_" [⟨"secret", marker⟩]
    ⟨"secret", marker⟩ (by decide) (by decide)
    ⟨⟨"secret", false, true⟩, by decide, rfl, rfl⟩ (by decide)

/-- Fixture store separating one Merge application from two. -/
def cM : Config := [("notify_webhook", [("t", []), ("_", [⟨"x", "1"⟩])])]

set_option maxRecDepth 100000 in
/-- C7: at this store the first Merge visits target t before the default
target and keeps the operator key x only under the default target; the
second Merge visits the default target first and back-fills t from the
already-merged default entry, adding x to t.  Both visit orders realize Go
map iterations, so Merge of Merge differs observably from Merge, against
the idempotence the spec states; the intended back-fill source is the
registered default KVS, under which every second-pass back-fill would be a
no-op. -/
theorem claim7_merge_not_idempotent :
    lookup2 (mergeCfg dT0 (mergeCfg dT0 cM)) "notify_webhook" "t" ≠
      lookup2 (mergeCfg dT0 cM) "notify_webhook" "t" := by decide
